import Mathlib

/-!
Verification of the Qase migration scripts' text-repair and reconciliation
core against its natural-language specification.

Text is modelled as `List Char` (Python `str`).  `Option Txt` models a
Python value that may be absent/None.  The regular-expression based
scanners of the source are embedded as explicit, executable left-to-right
matchers that follow the semantics of the concrete patterns used by the
code (leftmost matching, non-overlapping occurrences, greedy character
classes, lazy dot-stars with backtracking).
-/

set_option autoImplicit false

namespace QaseSpec

abbrev Txt := List Char

/-- Python default whitespace set used by str.strip: space, tab, newline,
carriage return, vertical tab, form feed. -/
def pyIsSpace (c : Char) : Bool :=
  c = ' ' || c = '\t' || c = '\n' || c = '\r' || c = Char.ofNat 11 || c = Char.ofNat 12

/-- Python str.strip(): drop leading and trailing whitespace. -/
def pyStrip (s : Txt) : Txt :=
  ((s.dropWhile pyIsSpace).reverse.dropWhile pyIsSpace).reverse

/-- Substring test: needle occurs somewhere in hay (Python `in`). -/
def listContains (hay needle : Txt) : Bool :=
  (List.range (hay.length + 1)).any (fun i => needle.isPrefixOf (hay.drop i))

/-- Fuelled worker for `replaceAll`; the fuel is the input length, enough
because every recursion step consumes at least one input character. -/
def replaceAllF : Nat → Txt → Txt → Txt → Txt
  | 0, _, _, s => s
  | _ + 1, _, _, [] => []
  | fuel + 1, pat, repl, c :: rest =>
      if pat.isPrefixOf (c :: rest) && !pat.isEmpty then
        repl ++ replaceAllF fuel pat repl ((c :: rest).drop pat.length)
      else
        c :: replaceAllF fuel pat repl rest

/-- Python str.replace(pat, repl): replace all non-overlapping occurrences,
scanning left to right.  (The sources only ever call it with a non-empty
pattern; for an empty pattern this model returns the input unchanged.) -/
def replaceAll (pat repl s : Txt) : Txt := replaceAllF s.length pat repl s

/-!
## csv_fixer.py — CSVFixer.find_broken_csv_references / fix_text

The three dialect patterns of `find_broken_csv_references`:

  pattern1 : unescaped `![name](url)` with a negative lookbehind for a
             backslash before the bang; the name segment `[^\]]+\.csv[^\]]*`
             is the whole run of non-bracket characters up to the closing
             bracket, provided `.csv` occurs in it at index at least 1;
             the url segment `[^\)]+` is the non-empty run up to the
             closing parenthesis.
  pattern2 : the same with a literal backslash-escaped bang.
  pattern3 : fully escaped markdown with lazy groups
             (backslash-bang backslash-bracket, `.*?\.csv.*?`,
             backslash-close-bracket backslash-open-paren, `.*?`,
             backslash-close-paren).
-/

/-- The name group of patterns 1/2 must contain ".csv" starting at index
at least 1 (the regex requires one or more characters before the dot). -/
def csvNameOk (name : Txt) : Bool := listContains (name.drop 1) (".csv".toList)

/-- Shared tail of patterns 1 and 2 after the opening bracket: the name run
up to the closing bracket, the literal bracket-paren, the url run up to the
closing parenthesis.  Returns (name, url, characters consumed). -/
def refBody (rest : Txt) : Option (Txt × Txt × Nat) :=
  let ps := rest.span (fun c => c != ']')
  match ps.2 with
  | ']' :: '(' :: rest2 =>
      if csvNameOk ps.1 then
        let qs := rest2.span (fun c => c != ')')
        match qs.2 with
        | ')' :: _ =>
            if qs.1.isEmpty then none
            else some (ps.1, qs.1, ps.1.length + 2 + qs.1.length + 1)
        | _ => none
      else none
  | _ => none

/-- Try pattern1 at the current position.  `prev` is the character just
before the position (the negative lookbehind for a backslash).  Returns
(match length, broken span, fixed replacement). -/
def tryP1 (prev : Option Char) (s : Txt) : Option (Nat × Txt × Txt) :=
  match s with
  | '!' :: '[' :: rest =>
      if prev = some '\\' then none
      else
        match refBody rest with
        | some (name, url, consumed) =>
            some (2 + consumed,
                  '!' :: '[' :: (name ++ ']' :: '(' :: (url ++ [')'])),
                  '[' :: (name ++ ']' :: '(' :: (url ++ [')'])))
        | none => none
  | _ => none

/-- Try pattern2 (escaped bang, unescaped brackets) at the current position. -/
def tryP2 (s : Txt) : Option (Nat × Txt × Txt) :=
  match s with
  | '\\' :: '!' :: '[' :: rest =>
      match refBody rest with
      | some (name, url, consumed) =>
          some (3 + consumed,
                '\\' :: '!' :: '[' :: (name ++ ']' :: '(' :: (url ++ [')'])),
                '[' :: (name ++ ']' :: '(' :: (url ++ [')'])))
      | none => none
  | _ => none

/-- No newline among the characters of `s` between indexes `a` (inclusive)
and `b` (exclusive); the lazy dot of pattern3 cannot cross a newline. -/
def noNlPy (s : Txt) (a b : Nat) : Bool :=
  ((s.drop a).take (b - a)).all (fun c => c != '\n')

/-- Body of pattern3 after the escaped bang-bracket prefix: lazy search, in
backtracking order, for the earliest ".csv", then the earliest escaped
close-bracket/open-paren, then the earliest escaped close-paren.  Returns
(name group, url group, characters consumed). -/
def p3Body (rest : Txt) : Option (Txt × Txt × Nat) :=
  (List.range (rest.length + 1)).findSome? (fun j =>
    if (".csv".toList).isPrefixOf (rest.drop j) && noNlPy rest 0 j then
      (List.range (rest.length + 1)).findSome? (fun k =>
        if decide (j + 4 ≤ k) && ("\\]\\(".toList).isPrefixOf (rest.drop k)
            && noNlPy rest (j + 4) k then
          (List.range (rest.length + 1)).findSome? (fun m =>
            if decide (k + 4 ≤ m) && ("\\)".toList).isPrefixOf (rest.drop m)
                && noNlPy rest (k + 4) m then
              some (rest.take k, (rest.drop (k + 4)).take (m - (k + 4)), m + 2)
            else none)
        else none)
    else none)

/-- Unescape chain applied to the captured name of pattern3, in source
order: escaped backslash first, then underscore, parens and dot. -/
def unescName (s : Txt) : Txt :=
  replaceAll ("\\.".toList) (".".toList)
    (replaceAll ("\\)".toList) (")".toList)
      (replaceAll ("\\(".toList) ("(".toList)
        (replaceAll ("\\_".toList) ("_".toList)
          (replaceAll ("\\\\".toList) ("\\".toList) s))))

/-- Unescape chain applied to the captured url of pattern3: the same as for
the name, followed by the escaped forward slash. -/
def unescUrl (s : Txt) : Txt :=
  replaceAll ("\\/".toList) ("/".toList) (unescName s)

/-- Try pattern3 (fully escaped markdown) at the current position. -/
def tryP3 (s : Txt) : Option (Nat × Txt × Txt) :=
  match s with
  | '\\' :: '!' :: '\\' :: '[' :: rest =>
      match p3Body rest with
      | some (name, url, consumed) =>
          some (4 + consumed,
                '\\' :: '!' :: '\\' :: '[' :: (rest.take consumed),
                '[' :: (unescName name ++ ']' :: '(' :: (unescUrl url ++ [')'])))
      | none => none
  | _ => none

/-- re.finditer over the whole text for one pattern: try a match at every
position from the left, skip the whole match when one is found (matches do
not overlap), otherwise advance one character.  `prev` tracks the character
before the current position for pattern1's lookbehind.  The fuel is the text
length: every step consumes at least one character. -/
def scanM (m : Option Char → Txt → Option (Nat × Txt × Txt)) :
    Nat → Option Char → Txt → List (Txt × Txt)
  | 0, _, _ => []
  | _ + 1, _, [] => []
  | fuel + 1, prev, c :: rest =>
      match m prev (c :: rest) with
      | some (len, broken, fixed) =>
          (broken, fixed) ::
            scanM m fuel (((c :: rest).take len).getLast?) ((c :: rest).drop len)
      | none => scanM m fuel (some c) rest

/-- CSVFixer.find_broken_csv_references: the matches of the three dialect
patterns, in source order (pattern1 list, then pattern2, then pattern3),
each as a pair (broken span, fixed replacement). -/
def findBrokenCsvRefs (s : Txt) : List (Txt × Txt) :=
  if s.isEmpty then []
  else
    scanM tryP1 s.length none s
      ++ scanM (fun _ t => tryP2 t) s.length none s
      ++ scanM (fun _ t => tryP3 t) s.length none s

/-- CSVFixer.fix_text: None for absent/empty input, None when no pattern
matched, otherwise the text with every broken span replaced — but None
again if the rewritten text coincides with the original. -/
def fixText : Option Txt → Option Txt
  | none => none
  | some s =>
      if s.isEmpty then none
      else
        let refs := findBrokenCsvRefs s
        if refs.isEmpty then none
        else
          let ft := refs.foldl (fun acc bf => replaceAll bf.1 bf.2 acc) s
          if ft = s then none else some ft

/-!
## remove_attachment_references.py — remove_attachment_references

Pattern 1: a markdown image with alt text "attachment" wrapped in a link to
an attachment-retrieval path with a numeric id.  Pattern 2: a bare image
with alt text "attachment".  Both are deleted (replaced by the empty
string), then whitespace is normalised.
-/

/-- Match of the nested attachment-link pattern at the current position:
literal "[![attachment](", a non-empty run without ')', then
")](index.php?/attachments/get/", one or more digits, ')'.  Returns the
match length. -/
def tryAtt1 (s : Txt) : Option Nat :=
  let p := "[![attachment](".toList
  if p.isPrefixOf s then
    let u := (s.drop p.length).span (fun c => c != ')')
    if u.1.isEmpty then none
    else
      match u.2 with
      | ')' :: r2 =>
          let q := "](index.php?/attachments/get/".toList
          if q.isPrefixOf r2 then
            let d := (r2.drop q.length).span (fun c => c.isDigit)
            if d.1.isEmpty then none
            else
              match d.2 with
              | ')' :: _ =>
                  some (p.length + u.1.length + 1 + q.length + d.1.length + 1)
              | _ => none
          else none
      | _ => none
  else none

/-- Match of the bare attachment-image pattern at the current position:
literal "![attachment](", a non-empty run without ')', then ')'. -/
def tryAtt2 (s : Txt) : Option Nat :=
  let p := "![attachment](".toList
  if p.isPrefixOf s then
    let u := (s.drop p.length).span (fun c => c != ')')
    if u.1.isEmpty then none
    else
      match u.2 with
      | ')' :: _ => some (p.length + u.1.length + 1)
      | _ => none
  else none

/-- re.sub(pattern, empty string, s) for a matcher that reports the match
length at a position: single left-to-right pass, deleting each match and
resuming after it.  The fuel is the text length (every step consumes at
least one character; our matchers never report length zero). -/
def subMF (m : Txt → Option Nat) : Nat → Txt → Txt
  | 0, s => s
  | _ + 1, [] => []
  | fuel + 1, c :: rest =>
      match m (c :: rest) with
      | some len => subMF m fuel ((c :: rest).drop len)
      | none => c :: subMF m fuel rest

/-- Wrapper for `subMF` with the canonical fuel. -/
def subM (m : Txt → Option Nat) (s : Txt) : Txt := subMF m s.length s

/-- re.sub of one or more spaces to a single space within a line. -/
def collapseSpacesGo : Bool → Txt → Txt
  | _, [] => []
  | inRun, c :: rest =>
      if c = ' ' then
        if inRun then collapseSpacesGo true rest
        else ' ' :: collapseSpacesGo true rest
      else c :: collapseSpacesGo false rest

/-- Collapse runs of spaces to a single space (the per-line cleanup of
remove_attachment_references; tabs are untouched there). -/
def collapseSpaces (s : Txt) : Txt := collapseSpacesGo false s

/-- re.sub of runs of spaces and tabs to a single space (the per-line
cleanup of strip_html_tags). -/
def collapseSpaceTabGo : Bool → Txt → Txt
  | _, [] => []
  | inRun, c :: rest =>
      if c = ' ' || c = '\t' then
        if inRun then collapseSpaceTabGo true rest
        else ' ' :: collapseSpaceTabGo true rest
      else c :: collapseSpaceTabGo false rest

/-- Wrapper for `collapseSpaceTabGo`. -/
def collapseSpaceTab (s : Txt) : Txt := collapseSpaceTabGo false s

/-- re.sub of three or more consecutive newlines to exactly two: emit the
first two newlines of every run, drop the rest.  The counter tracks how
many newlines of the current run were already seen. -/
def collapseNlGo : Nat → Txt → Txt
  | _, [] => []
  | k, c :: rest =>
      if c = '\n' then
        if k < 2 then '\n' :: collapseNlGo (k + 1) rest
        else collapseNlGo k rest
      else c :: collapseNlGo 0 rest

/-- Wrapper for `collapseNlGo`. -/
def collapseNl (s : Txt) : Txt := collapseNlGo 0 s

/-- Python str.split of a text on newline characters. -/
def splitNl : Txt → List Txt
  | [] => [[]]
  | '\n' :: rest => [] :: splitNl rest
  | c :: rest =>
      match splitNl rest with
      | l :: ls => (c :: l) :: ls
      | [] => [[c]]

/-- Python newline.join of a list of lines. -/
def joinNl (ls : List Txt) : Txt := List.intercalate ['\n'] ls

/-- remove_attachment_references: delete both attachment patterns, collapse
space runs within each line, collapse three or more newlines to two, and
strip the result.  Empty input is returned unchanged. -/
def removeAttachmentReferences (s : Txt) : Txt :=
  if s.isEmpty then s
  else
    let t1 := subM tryAtt1 s
    let t2 := subM tryAtt2 t1
    let t3 := joinNl ((splitNl t2).map collapseSpaces)
    let t4 := collapseNl t3
    pyStrip t4

/-- Some position of the text matches one of the two attachment patterns
(used to state "contains a recognised broken-markup pattern"). -/
def hasAttachmentRef (s : Txt) : Bool :=
  (List.range (s.length + 1)).any
    (fun i => (tryAtt1 (s.drop i)).isSome || (tryAtt2 (s.drop i)).isSome)

/-!
## fix_html_tags.py — strip_html_tags
-/

/-- Match of an HTML tag at the current position: '<', a non-empty run
without '>', then '>'. -/
def tryTag (s : Txt) : Option Nat :=
  match s with
  | '<' :: rest =>
      let t := rest.span (fun c => c != '>')
      if t.1.isEmpty then none
      else
        match t.2 with
        | '>' :: _ => some (1 + t.1.length + 1)
        | _ => none
  | _ => none

/-- strip_html_tags: delete every tag, strip each line and collapse its
space/tab runs, collapse three or more newlines to two, and strip the
result.  Empty input is returned unchanged. -/
def stripHtmlTags (s : Txt) : Txt :=
  if s.isEmpty then s
  else
    let t1 := subM tryTag s
    let t2 := joinNl ((splitNl t1).map (fun l => collapseSpaceTab (pyStrip l)))
    let t3 := collapseNl t2
    pyStrip t3

/-- Some position of the text matches the HTML-tag pattern. -/
def hasHtmlTag (s : Txt) : Bool :=
  (List.range (s.length + 1)).any (fun i => (tryTag (s.drop i)).isSome)

/-!
## Data model: records, steps, custom fields, update payloads

A Python dict field that may be absent or None is an `Option`; a step's
optional nested "steps" list is the (possibly empty) `List Step` of the
constructor, with the absent key and the empty list identified (both are
falsy at every use site of the sources).
-/

/-- A test-case step: position, hash, action, expected_result, data,
nested steps. -/
inductive Step where
  | mk : Option Int → Option Txt → Option Txt → Option Txt → Option Txt →
         List Step → Step

/-- The position identifier of a step. -/
def Step.positionOf : Step → Option Int
  | .mk p _ _ _ _ _ => p

/-- The hash identifier of a step. -/
def Step.hashOf : Step → Option Txt
  | .mk _ h _ _ _ _ => h

/-- The action text of a step. -/
def Step.actionOf : Step → Option Txt
  | .mk _ _ a _ _ _ => a

/-- The expected_result text of a step. -/
def Step.expectedOf : Step → Option Txt
  | .mk _ _ _ e _ _ => e

/-- The data text of a step. -/
def Step.dataOf : Step → Option Txt
  | .mk _ _ _ _ d _ => d

/-- The nested steps of a step. -/
def Step.stepsOf : Step → List Step
  | .mk _ _ _ _ _ ns => ns

/-- One custom-field value of a record. -/
structure CustomField where
  id : Option Int
  value : Option Txt

/-- A test-case record as fetched from the API. -/
structure TestCase where
  description : Option Txt
  preconditions : Option Txt
  postconditions : Option Txt
  steps : List Step
  custom_fields : List CustomField

/-- The partial-update payload produced by an analyze function: each key is
present exactly when the corresponding Python dict key is set. -/
structure Updates where
  description : Option Txt
  preconditions : Option Txt
  postconditions : Option Txt
  steps : Option (List Step)
  custom_field : Option (List (Txt × Txt))

/-- The payload dict is empty (Python falsy). -/
def Updates.isEmptyU (u : Updates) : Bool :=
  u.description.isNone && u.preconditions.isNone && u.postconditions.isNone
    && u.steps.isNone && u.custom_field.isNone

/-- Python truthiness of an optional text: false for absent and for empty. -/
def truthy : Option Txt → Bool
  | none => false
  | some s => !s.isEmpty

/-- Python dict assignment semantics for the custom_field map: overwrite an
existing key in place, else append. -/
def upsertKV (k v : Txt) : List (Txt × Txt) → List (Txt × Txt)
  | [] => [(k, v)]
  | kv :: rest => if kv.1 = k then (k, v) :: rest else kv :: upsertKV k v rest

/-- Python str(i) for an integer custom-field id. -/
def intChars (i : Int) : Txt := (toString i).toList

/-- The tree of step nesting is shallower than the fuel: every fuelled
walker below consumes one unit of fuel per nesting level. -/
def depthOkF : Nat → Step → Bool
  | 0, _ => false
  | fuel + 1, .mk _ _ _ _ _ ns => ns.all (depthOkF fuel)

/-- Preorder flattening of (depth, position, hash) over a step tree, one
entry per step at every nesting depth. -/
def idsDepthF : Nat → Nat → Step → List (Nat × Option Int × Option Txt)
  | 0, _, _ => []
  | fuel + 1, d, .mk p h _ _ _ ns =>
      (d, p, h) :: (ns.map (idsDepthF fuel (d + 1))).flatten

/-- Preorder flattening of (depth, action, expected_result, data) over a
step tree, one entry per step at every nesting depth. -/
def leavesDepthF :
    Nat → Nat → Step → List (Nat × Option Txt × Option Txt × Option Txt)
  | 0, _, _ => []
  | fuel + 1, d, .mk _ _ a e dt ns =>
      (d, a, e, dt) :: (ns.map (leavesDepthF fuel (d + 1))).flatten

/-- Every step of the tree, at every depth within the fuel, has an action
that is present and not whitespace-only (false when the fuel runs out, so
`true` certifies the whole tree). -/
def actionsOkF : Nat → Step → Bool
  | 0, _ => false
  | fuel + 1, .mk _ _ a _ _ ns =>
      (match a with
       | some s => !(pyStrip s).isEmpty
       | none => false)
        && ns.all (actionsOkF fuel)

/-!
## remove_attachment_references.py — analyze_test_case and helpers
-/

/-- The action is missing, empty or whitespace-only (the emptiness test of
ensure_step_has_action and of the fix_step placeholder branch). -/
def actionEmptyWs : Option Txt → Bool
  | none => true
  | some s => s.isEmpty || (pyStrip s).isEmpty

/-- The shared shape of fix_step's handling of one text field: when the
field is truthy, clean it and record it (with a change flag) if the cleaned
text differs; otherwise keep the copied original. -/
def rarCleanField (v : Option Txt) : Option Txt × Bool :=
  match v with
  | some s =>
      if !s.isEmpty && decide (removeAttachmentReferences s ≠ s) then
        (some (removeAttachmentReferences s), true)
      else (v, false)
  | none => (v, false)

/-- fix_step's handling of the action: the field repair followed by the
placeholder substitution when the result is missing/empty/whitespace-only. -/
def rarFixAction (a : Option Txt) : Option Txt × Bool :=
  let r := rarCleanField a
  if actionEmptyWs r.1 then (some ['.'], true) else r

/-- fix_step of remove_attachment_references.analyze_test_case: repair the
three text fields of the step (with the action placeholder), recurse into
the nested steps, and report whether anything changed.  Structurally
recursive on the fuel, one unit per nesting level. -/
def rarFixStepF : Nat → Step → Step × Bool
  | 0, s => (s, false)
  | fuel + 1, .mk p hs a e dt ns =>
      let ar := rarFixAction a
      let er := rarCleanField e
      let dr := rarCleanField dt
      let sub := ns.map (rarFixStepF fuel)
      (.mk p hs ar.1 er.1 dr.1 (if ns.isEmpty then ns else sub.map Prod.fst),
       ar.2 || er.2 || dr.2 || (!ns.isEmpty && sub.any Prod.snd))

/-- ensure_step_has_action: copy the step, substitute the placeholder "."
when the action is missing/empty/whitespace-only, recurse into nested
steps. -/
def ensureStepF : Nat → Step → Step
  | 0, s => s
  | fuel + 1, .mk p hs a e dt ns =>
      .mk p hs (if actionEmptyWs a then some ['.'] else a) e dt
        (if ns.isEmpty then ns else ns.map (ensureStepF fuel))

/-- The scalar-field branch of remove_attachment_references.analyze: when
the field is truthy and cleaning changes it, the cleaned text goes into the
update payload. -/
def rarScalar (v : Option Txt) : Option Txt :=
  match v with
  | some s =>
      if !s.isEmpty && decide (removeAttachmentReferences s ≠ s) then
        some (removeAttachmentReferences s)
      else none
  | none => none

/-- The custom-fields loop of remove_attachment_references.analyze. -/
def rarCustomLoop (fs : List CustomField) : List (Txt × Txt) :=
  fs.foldl
    (fun acc f =>
      match f.value with
      | some v =>
          if !v.isEmpty then
            let c := removeAttachmentReferences v
            match f.id with
            | some i => if decide (v ≠ c) then upsertKV (intChars i) c acc else acc
            | none => acc
          else acc
      | none => acc) []

/-- remove_attachment_references.analyze_test_case: the update payload with
only the changed fields; when any step changed, the whole step list is
re-emitted after a final ensure_step_has_action pass. -/
def rarAnalyzeF (fuel : Nat) (tc : TestCase) : Updates :=
  let fx := tc.steps.map (rarFixStepF fuel)
  { description := rarScalar tc.description
    preconditions := rarScalar tc.preconditions
    postconditions := rarScalar tc.postconditions
    steps :=
      if !tc.steps.isEmpty && fx.any Prod.snd then
        some ((fx.map Prod.fst).map (ensureStepF fuel))
      else none
    custom_field :=
      if tc.custom_fields.isEmpty then none
      else
        let cf := rarCustomLoop tc.custom_fields
        if cf.isEmpty then none else some cf }

/-!
## csv_fixer.py — CSVFixer.analyze_test_case
-/

/-- The shared shape of the csv analyzer's handling of one step text field:
when fix_text reports a repair, emit it with a change flag, else re-emit
the original value (key absent only when the original was absent). -/
def csvFixOpt (v : Option Txt) : Option Txt × Bool :=
  let fv := fixText v
  if truthy fv then (fv, true) else (v, false)

/-- The step loop body of CSVFixer.analyze_test_case: build the emitted
step dict (position, hash, the three text fields) — note that nested steps
are never visited and never re-emitted. -/
def csvEmitStep (s : Step) : Step × Bool :=
  match s with
  | .mk p hs a e dt _ =>
      let ar := csvFixOpt a
      let er := csvFixOpt e
      let dr := csvFixOpt dt
      (.mk p hs ar.1 er.1 dr.1 [], ar.2 || er.2 || dr.2)

/-- The scalar-field branch of CSVFixer.analyze_test_case. -/
def csvScalar (v : Option Txt) : Option Txt :=
  let fv := fixText v
  if truthy fv then fv else none

/-- The custom-fields loop of CSVFixer.analyze_test_case. -/
def csvCustomLoop (fs : List CustomField) : List (Txt × Txt) :=
  fs.foldl
    (fun acc f =>
      match fixText f.value, f.id with
      | some v, some i => if !v.isEmpty then upsertKV (intChars i) v acc else acc
      | _, _ => acc) []

/-- CSVFixer.analyze_test_case: the update payload with only the fields
that need fixing; the step list is re-emitted whole when any top-level step
changed. -/
def csvAnalyze (tc : TestCase) : Updates :=
  let em := tc.steps.map csvEmitStep
  { description := csvScalar tc.description
    preconditions := csvScalar tc.preconditions
    postconditions := csvScalar tc.postconditions
    steps :=
      if !tc.steps.isEmpty && em.any Prod.snd then some (em.map Prod.fst)
      else none
    custom_field :=
      if tc.custom_fields.isEmpty then none
      else
        let cf := csvCustomLoop tc.custom_fields
        if cf.isEmpty then none else some cf }

/-!
## remove_attachment_references.py — update_test_case_with_retry and the
per-record driver loops

The collaborator's response to one PATCH request is abstracted as `Resp`;
an HTTP error carries the status code and the parsed "errors" object of
the JSON body (`none` when the body is not valid JSON).  A dict value in
the errors object is a string, a list (stringified element-wise by the
code), or something else.
-/

/-- One value of the "errors" object of a 422 response body. -/
inductive ErrVal where
  | strV : Txt → ErrVal
  | listV : List Txt → ErrVal
  | otherV : ErrVal

/-- The outcome of one PATCH request. -/
inductive Resp where
  | ok : Resp
  | httpError : Nat → Option (List (Txt × ErrVal)) → Resp
  | httpNoResp : Resp
  | connError : Resp

/-- The structural-rejection marker the retry policy looks for. -/
def actionMarker : Txt := "Action field is required".toList

/-- One errors-dict value mentions the marker (list values element-wise,
string values directly, anything else never). -/
def errValHasMarker : ErrVal → Bool
  | .listV vs => vs.any (fun v => listContains v actionMarker)
  | .strV v => listContains v actionMarker
  | .otherV => false

/-- Some value of the errors object mentions the marker. -/
def hasActionError (errs : List (Txt × ErrVal)) : Bool :=
  errs.any (fun kv => errValHasMarker kv.2)

/-- update_test_case_with_retry: submit once; on a 422 whose parsed body
mentions the action marker, and when the payload has steps, force the
placeholder into every step's action and resubmit exactly once; every
other rejection, and a failed retry, is terminal.  Returns the success
flag and the list of payloads submitted, in order. -/
def updateWithRetryF (fuel : Nat) (r1 r2 : Resp) (u : Updates) :
    Bool × List Updates :=
  match r1 with
  | .ok => (true, [u])
  | .httpError st body =>
      if st = 422 then
        match body with
        | some errs =>
            if hasActionError errs && u.steps.isSome then
              let u2 := { u with steps := u.steps.map (fun l => l.map (ensureStepF fuel)) }
              match r2 with
              | .ok => (true, [u, u2])
              | _ => (false, [u, u2])
            else (false, [u])
        | none => (false, [u])
      else (false, [u])
  | .httpNoResp => (false, [u])
  | .connError => (false, [u])

/-- Per-record counter deltas of CSVFixer.process_all_cases. -/
structure CsvStats where
  needsFixing : Nat
  fixed : Nat
  errors : Nat
deriving DecidableEq

/-- One iteration of CSVFixer.process_all_cases: analyze; when the payload
is non-empty count it as needing fixing and (outside dry-run) submit it,
counting success or error; a dry run counts it as would-be fixed without a
call.  Returns the counter deltas and the submitted payloads. -/
def csvProcessCase (dry apiOk : Bool) (tc : TestCase) :
    CsvStats × List Updates :=
  let u := csvAnalyze tc
  if !u.isEmptyU then
    if !dry then
      if apiOk then (⟨1, 1, 0⟩, [u]) else (⟨1, 0, 1⟩, [u])
    else (⟨1, 1, 0⟩, [])
  else (⟨0, 0, 0⟩, [])

/-- Per-record counter deltas of remove_attachment_references.main. -/
structure RarStats where
  hasReferences : Nat
  fixed : Nat
  errors : Nat
  skipped : Nat
deriving DecidableEq

/-- One iteration of remove_attachment_references.main: analyze; a
non-empty payload is submitted through the retry helper (or counted as
fixed in a dry run); an empty payload is counted as skipped with no call. -/
def rarProcessRecord (fuel : Nat) (dry : Bool) (r1 r2 : Resp)
    (tc : TestCase) : RarStats × List Updates :=
  let u := rarAnalyzeF fuel tc
  if !u.isEmptyU then
    if !dry then
      let res := updateWithRetryF fuel r1 r2 u
      if res.1 then (⟨1, 1, 0, 0⟩, res.2) else (⟨1, 0, 1, 0⟩, res.2)
    else (⟨1, 1, 0, 0⟩, [])
  else (⟨0, 0, 0, 1⟩, [])

/-!
## Heap model of the step dictionaries

To state that the analyzers never mutate their input, the step dicts of a
test case are placed in an explicit heap of mutable objects addressed by
allocation index.  A Python dict-copy allocates a fresh object, and every
dict assignment of the sources is a write to such a freshly allocated
object; the theorems show that every object that existed before a walker
ran is untouched afterwards.
-/

/-- A step dict as a heap object; nested steps are references into the
heap. -/
structure SObj where
  position : Option Int
  hash : Option Txt
  action : Option Txt
  expected : Option Txt
  sdata : Option Txt
  steps : List Nat

instance : Inhabited SObj := ⟨⟨none, none, none, none, none, []⟩⟩

/-- The heap: allocation-ordered list of step objects. -/
abbrev Heap := List SObj

/-- Read the object behind a reference. -/
def hget (h : Heap) (r : Nat) : SObj := List.getD h r default

/-- Overwrite the object behind a reference. -/
def hset (h : Heap) (r : Nat) (o : SObj) : Heap := List.set h r o

/-- Append-allocate an object; the fresh reference is the old length. -/
def halloc (h : Heap) (o : SObj) : Heap := h ++ [o]

/-- The number of allocated objects. -/
def hlen (h : Heap) : Nat := List.length h

/-- Heap extension: every object that existed in `h` is unchanged in the
later heap, which may only have grown. -/
def HExt (h h2 : Heap) : Prop :=
  hlen h ≤ hlen h2 ∧ ∀ i, i < hlen h → h2[i]? = h[i]?

/-- The fold over a list of nested step references shared by the heap
walkers: thread the heap, collect the result references and or-combine
the change flags. -/
def stepFold (f : Heap → Nat → Heap × Nat × Bool) (rs : List Nat)
    (init : Heap × List Nat × Bool) : Heap × List Nat × Bool :=
  rs.foldl
    (fun acc r2 =>
      let q := f acc.1 r2
      (q.1, acc.2.1 ++ [q.2.1], acc.2.2 || q.2.2)) init

/-- A dict assignment: overwrite one field of the object behind `nr`. -/
def hup (h2 : Heap) (nr : Nat) (upd : SObj → SObj) : Heap :=
  hset h2 nr (upd (hget h2 nr))

/-- The value/changed pair of the html analyzer's handling of one step
field; the value is `none` exactly when no key is written. -/
def htmlFixOpt (v : Option Txt) : Option Txt × Bool :=
  match v with
  | some a =>
      if !a.isEmpty then
        if decide (stripHtmlTags a ≠ a) then (some (stripHtmlTags a), true)
        else (some a, false)
      else (none, false)
  | none => (none, false)

/-- Heap version of remove_attachment_references' fix_step: copy the step
object, write the repaired action (with placeholder), expected_result and
data into the copy exactly when they changed, recurse into the nested
references, and write the list of fresh nested references into the copy.
The per-field values and change flags are the ones of the pure walker. -/
def rarFixStepH : Nat → Heap → Nat → Heap × Nat × Bool
  | 0, h, r => (h, r, false)
  | fuel + 1, h, r =>
      let stepO := hget h r
      let nr := hlen h
      let h1 := halloc h stepO
      let ar := rarFixAction stepO.action
      let h2 := if ar.2 then hup h1 nr (fun o => { o with action := ar.1 }) else h1
      let er := rarCleanField stepO.expected
      let h3 := if er.2 then hup h2 nr (fun o => { o with expected := er.1 }) else h2
      let dr := rarCleanField stepO.sdata
      let h4 := if dr.2 then hup h3 nr (fun o => { o with sdata := dr.1 }) else h3
      if stepO.steps.isEmpty then (h4, nr, ar.2 || er.2 || dr.2)
      else
        let t := stepFold (rarFixStepH fuel) stepO.steps (h4, [], false)
        (hup t.1 nr (fun o => { o with steps := t.2.1 }), nr,
         ar.2 || er.2 || dr.2 || t.2.2)

/-- Heap version of ensure_step_has_action: copy the step object, write
the placeholder when needed, recurse into the nested references. -/
def ensureStepH : Nat → Heap → Nat → Heap × Nat
  | 0, h, r => (h, r)
  | fuel + 1, h, r =>
      let stepO := hget h r
      let nr := hlen h
      let h1 := halloc h stepO
      let h2 :=
        if actionEmptyWs stepO.action then
          hup h1 nr (fun o => { o with action := some ['.'] })
        else h1
      if stepO.steps.isEmpty then (h2, nr)
      else
        let t := stepFold
          (fun hh rr => let q := ensureStepH fuel hh rr; (q.1, q.2, false))
          stepO.steps (h2, [], false)
        (hup t.1 nr (fun o => { o with steps := t.2.1 }), nr)

/-- Heap version of the csv analyzer's step loop body: allocate a fresh
empty dict and write position, hash and the three (possibly repaired) text
fields into it; nested steps are neither read into the new dict nor
visited.  A field key is written exactly when the pure `csvFixOpt` value
is present. -/
def csvEmitStepH (h : Heap) (r : Nat) : Heap × Nat × Bool :=
  let stepO := hget h r
  let nr := hlen h
  let h1 := halloc h default
  let h2 :=
    if stepO.position.isSome then
      hup h1 nr (fun o => { o with position := stepO.position })
    else h1
  let h3 :=
    if stepO.hash.isSome then hup h2 nr (fun o => { o with hash := stepO.hash })
    else h2
  let ar := csvFixOpt stepO.action
  let h4 := if ar.1.isSome then hup h3 nr (fun o => { o with action := ar.1 }) else h3
  let er := csvFixOpt stepO.expected
  let h5 := if er.1.isSome then hup h4 nr (fun o => { o with expected := er.1 }) else h4
  let dr := csvFixOpt stepO.sdata
  let h6 := if dr.1.isSome then hup h5 nr (fun o => { o with sdata := dr.1 }) else h5
  (h6, nr, ar.2 || er.2 || dr.2)

/-- Heap version of the html analyzer's step loop body: like the csv one,
but a field key is written only when the original value is truthy, with
strip_html_tags as the repair. -/
def htmlEmitStepH (h : Heap) (r : Nat) : Heap × Nat × Bool :=
  let stepO := hget h r
  let nr := hlen h
  let h1 := halloc h default
  let h2 :=
    if stepO.position.isSome then
      hup h1 nr (fun o => { o with position := stepO.position })
    else h1
  let h3 :=
    if stepO.hash.isSome then hup h2 nr (fun o => { o with hash := stepO.hash })
    else h2
  let ar := htmlFixOpt stepO.action
  let h4 := if ar.1.isSome then hup h3 nr (fun o => { o with action := ar.1 }) else h3
  let er := htmlFixOpt stepO.expected
  let h5 := if er.1.isSome then hup h4 nr (fun o => { o with expected := er.1 }) else h4
  let dr := htmlFixOpt stepO.sdata
  let h6 := if dr.1.isSome then hup h5 nr (fun o => { o with sdata := dr.1 }) else h5
  (h6, nr, ar.2 || er.2 || dr.2)

/-- Heap version of the steps section of remove_attachment_references'
analyze: run fix_step over every top-level reference; when anything
changed, run ensure_step_has_action over the fixed references and return
them as the payload's step list. -/
def rarStepsSectionH (fuel : Nat) (h : Heap) (rs : List Nat) :
    Heap × Option (List Nat) :=
  if rs.isEmpty then (h, none)
  else
    let t := stepFold (rarFixStepH fuel) rs (h, [], false)
    if t.2.2 then
      let u := stepFold
        (fun hh rr => let q := ensureStepH fuel hh rr; (q.1, q.2, false))
        t.2.1 (t.1, [], false)
      (u.1, some u.2.1)
    else (t.1, none)

/-!
## Derived definitions used in the statements
-/

/-- The rewriting pass of fix_text: replace every found broken span by its
fixed form, in order. -/
def applyRefs (s : Txt) : Txt :=
  (findBrokenCsvRefs s).foldl (fun acc bf => replaceAll bf.1 bf.2 acc) s

/-- The repair as applied by the driver: the repaired text when fix_text
reports a change, the original otherwise (spec §8 states idempotence for
this repair). -/
def csvRepairOnce (s : Txt) : Txt := (fixText (some s)).getD s

/-- The corrected payload the retry submits: every step's action forced
through ensure_step_has_action. -/
def rarEnsuredPayload (fuel : Nat) (u : Updates) : Updates :=
  { u with steps := u.steps.map (fun l => l.map (ensureStepF fuel)) }

/-- A record whose first top-level step has a broken CSV reference in its
action and carries a nested step (with its own identifier and broken
reference); exercises the nested-step handling of the analyzers. -/
def tcNested : TestCase :=
  TestCase.mk none none none
    [Step.mk (some 1) (some ("h1".toList)) (some ("![a.csv](u)".toList)) none none
      [Step.mk (some 2) (some ("h2".toList)) (some ("![b.csv](v)".toList)) none none []]]
    []

/-- A step tree with an attachment reference in the top action and a
whitespace-only nested action; exercises the repair and the placeholder at
both depths. -/
def stepNested : Step :=
  Step.mk (some 1) (some ("h1".toList)) (some ("![attachment](u)".toList)) none none
    [Step.mk (some 2) (some ("h2".toList)) (some ("  ".toList)) none
      (some ("d  e".toList)) []]

/-- A record built around `stepNested`. -/
def tcStepNested : TestCase := TestCase.mk none none none [stepNested] []

/-!
## Helper lemmas about fix_text
-/

theorem fixText_eq (s : Txt) :
    fixText (some s) =
      if s.isEmpty then none
      else if (findBrokenCsvRefs s).isEmpty then none
      else if applyRefs s = s then none else some (applyRefs s) := rfl

theorem fixText_of_no_refs (s : Txt) (h : findBrokenCsvRefs s = []) :
    fixText (some s) = none := by
  rw [fixText_eq]
  by_cases hs : s.isEmpty
  · simp [hs]
  · simp [hs, h, applyRefs]

theorem fixText_of_fixpoint (s : Txt) (h : applyRefs s = s) :
    fixText (some s) = none := by
  rw [fixText_eq]
  by_cases hs : s.isEmpty
  · simp [hs]
  · simp [hs, h]

theorem fixText_changed (s r : Txt) (h : fixText (some s) = some r) :
    r = applyRefs s ∧ r ≠ s := by
  rw [fixText_eq] at h
  by_cases hs : s.isEmpty
  · simp [hs] at h
  · by_cases hr : (findBrokenCsvRefs s).isEmpty
    · simp [hs, hr] at h
    · by_cases hf : applyRefs s = s
      · simp [hs, hr, hf] at h
      · simp [hs, hr, hf] at h
        exact ⟨h.symm, h ▸ hf⟩

/-!
## C1 — idempotence of the repair families (code_bug evidence)
-/

/-- C1: the spec requires repair(repair(t)) = repair(t) for every repair
family, but the code violates it: for the CSV-reference family the input
"!![a.csv](u)" repairs to "![a.csv](u)" and repairs again to "[a.csv](u)";
for the attachment family "![attachment![attachment](v)](u)" repairs to
"![attachment](u)" and repairs again to the empty string.  This theorem
evaluates the code at both failing inputs. -/
theorem c1_repair_not_idempotent :
    csvRepairOnce (csvRepairOnce ("!![a.csv](u)".toList))
        ≠ csvRepairOnce ("!![a.csv](u)".toList) ∧
    csvRepairOnce ("!![a.csv](u)".toList) ≠ "!![a.csv](u)".toList ∧
    removeAttachmentReferences
        (removeAttachmentReferences ("![attachment![attachment](v)](u)".toList))
      ≠ removeAttachmentReferences ("![attachment![attachment](v)](u)".toList) ∧
    removeAttachmentReferences ("![attachment![attachment](v)](u)".toList)
      ≠ "![attachment![attachment](v)](u)".toList := by
  refine ⟨by decide, by decide, by decide, by decide⟩

/-!
## C2 — the three-way contract of fix_text
-/

/-- C2: fix_text returns the no-op sentinel None for absent or empty
input, None when no pattern matched or when the rewritten text equals the
original, and otherwise the fully repaired string, which is never equal to
the original input. -/
theorem c2_fix_text_three_way :
    fixText none = none ∧
    fixText (some []) = none ∧
    (∀ s : Txt, findBrokenCsvRefs s = [] → fixText (some s) = none) ∧
    (∀ s : Txt, applyRefs s = s → fixText (some s) = none) ∧
    (∀ s r : Txt, fixText (some s) = some r → r = applyRefs s ∧ r ≠ s) ∧
    (∀ s : Txt, ¬s.isEmpty = true → ¬(findBrokenCsvRefs s).isEmpty = true →
       applyRefs s ≠ s → fixText (some s) = some (applyRefs s)) := by
  refine ⟨rfl, rfl, fixText_of_no_refs, fixText_of_fixpoint, fixText_changed, ?_⟩
  intro s hs hr hf
  rw [fixText_eq]
  simp [hs, hr, hf]

/-- Witness for C2: the contract evaluated at concrete inputs — a text
with no pattern yields the sentinel, and a repaired output differs from
its input. -/
theorem c2_fix_text_three_way_witness :
    fixText (some ("no refs".toList)) = none ∧
    ("[a.csv](u)".toList : Txt) ≠ "![a.csv](u)".toList := by
  refine ⟨c2_fix_text_three_way.2.2.1 _ (by decide), ?_⟩
  exact (c2_fix_text_three_way.2.2.2.2.1 ("![a.csv](u)".toList)
    ("[a.csv](u)".toList) (by decide)).2

/-!
## C7 — the fully-escaped example
-/

/-- C7 counterexample: on the fully-escaped input the code does not
produce the spec's expected "[data_1.csv](http://x/y)" — the escaped colon
is not in the unescape set. -/
theorem c7_counterexample :
    fixText (some ("\\!\\[data\\_1\\.csv\\]\\(http\\:\\/\\/x\\/y\\)".toList))
      ≠ some ("[data_1.csv](http://x/y)".toList) := by decide

/-- C7 amended: the fully-escaped input repairs to
"[data_1.csv](http\\://x/y)" — every escape of the unescape set
(backslash, underscore, parens, dot, slash) is resolved, but the escaped
colon of the url is kept verbatim. -/
theorem c7_fully_escaped_repair :
    fixText (some ("\\!\\[data\\_1\\.csv\\]\\(http\\:\\/\\/x\\/y\\)".toList))
      = some ("[data_1.csv](http\\://x/y)".toList) := by decide

/-!
## C9 — the unescaped example
-/

/-- C9 counterexample: "a !b[readme.csv](http://x/y) c" is not repaired to
"a [readme.csv](http://x/y) c"; the bang is not adjacent to the bracket,
so no dialect matches and fix_text reports no change. -/
theorem c9_counterexample :
    fixText (some ("a !b[readme.csv](http://x/y) c".toList))
      ≠ some ("a [readme.csv](http://x/y) c".toList) := by decide

/-- C9 amended: the spec's input is not detected as broken (fix_text
returns the sentinel); with the bang directly preceding the bracket the
repair behaves as the spec describes. -/
theorem c9_adjacent_bang_repair :
    fixText (some ("a !b[readme.csv](http://x/y) c".toList)) = none ∧
    fixText (some ("a ![readme.csv](http://x/y) c".toList))
      = some ("a [readme.csv](http://x/y) c".toList) := by
  refine ⟨by decide, by decide⟩

/-!
## C8 — pattern-free texts
-/

/-- C8 counterexample: "a  b" contains no HTML tag, yet strip_html_tags
changes it (whitespace normalisation collapses the double space), so the
claim "no recognised pattern implies no change" fails for the HTML
family. -/
theorem c8_counterexample :
    hasHtmlTag ("a  b".toList) = false ∧
    stripHtmlTags ("a  b".toList) ≠ "a  b".toList := by
  refine ⟨by decide, by decide⟩

/-- C8 amended: for the CSV-reference family, a text with no match always
yields the no-op sentinel; for the HTML and attachment families a
pattern-free text may still be changed by whitespace normalisation. -/
theorem c8_no_pattern_no_change :
    (∀ s : Txt, findBrokenCsvRefs s = [] → fixText (some s) = none) ∧
    (hasHtmlTag ("a  b".toList) = false ∧
      stripHtmlTags ("a  b".toList) = "a b".toList) ∧
    (hasAttachmentRef ("See  you".toList) = false ∧
      removeAttachmentReferences ("See  you".toList) = "See you".toList) := by
  refine ⟨fixText_of_no_refs, ⟨by decide, by decide⟩, ⟨by decide, by decide⟩⟩

/-- Witness for C8: the CSV conjunct applied at a concrete
pattern-free text. -/
theorem c8_no_pattern_no_change_witness :
    fixText (some ("plain text".toList)) = none :=
  c8_no_pattern_no_change.1 ("plain text".toList) (by decide)

/-!
## Helper lemmas about the step walkers
-/

theorem rarFix_ids : ∀ fuel d s, depthOkF fuel s = true →
    idsDepthF fuel d (rarFixStepF fuel s).1 = idsDepthF fuel d s := by
  intro fuel
  induction fuel with
  | zero => intro d s h; simp [depthOkF] at h
  | succ n ih =>
      intro d s h
      cases s with
      | mk p hs a e dt ns =>
          simp only [depthOkF, List.all_eq_true] at h
          simp only [rarFixStepF, idsDepthF]
          congr 1
          by_cases hns : ns.isEmpty
          · simp [hns]
          · simp only [hns, Bool.false_eq_true, if_false, List.map_map]
            congr 1
            apply List.map_congr_left
            intro x hx
            simp only [Function.comp]
            exact ih (d + 1) x (h x hx)

theorem ensure_ids : ∀ fuel d s, depthOkF fuel s = true →
    idsDepthF fuel d (ensureStepF fuel s) = idsDepthF fuel d s := by
  intro fuel
  induction fuel with
  | zero => intro d s h; simp [depthOkF] at h
  | succ n ih =>
      intro d s h
      cases s with
      | mk p hs a e dt ns =>
          simp only [depthOkF, List.all_eq_true] at h
          simp only [ensureStepF, idsDepthF]
          congr 1
          by_cases hns : ns.isEmpty
          · simp [hns]
          · simp only [hns, Bool.false_eq_true, if_false, List.map_map]
            congr 1
            apply List.map_congr_left
            intro x hx
            simp only [Function.comp]
            exact ih (d + 1) x (h x hx)

theorem rarFix_leaves : ∀ fuel d s, depthOkF fuel s = true →
    leavesDepthF fuel d (rarFixStepF fuel s).1
      = (leavesDepthF fuel d s).map
          (fun x => (x.1, (rarFixAction x.2.1).1, (rarCleanField x.2.2.1).1,
            (rarCleanField x.2.2.2).1)) := by
  intro fuel
  induction fuel with
  | zero => intro d s h; simp [depthOkF] at h
  | succ n ih =>
      intro d s h
      cases s with
      | mk p hs a e dt ns =>
          simp only [depthOkF, List.all_eq_true] at h
          simp only [rarFixStepF, leavesDepthF, List.map_cons]
          congr 1
          rw [List.map_flatten, List.map_map]
          by_cases hns : ns.isEmpty
          · have hnil : ns = [] := List.isEmpty_iff.mp hns
            subst hnil
            simp
          · simp only [hns, Bool.false_eq_true, if_false, List.map_map]
            congr 1
            apply List.map_congr_left
            intro x hx
            simp only [Function.comp]
            exact ih (d + 1) x (h x hx)

theorem rarFix_depthOk : ∀ fuel s, depthOkF fuel s = true →
    depthOkF fuel (rarFixStepF fuel s).1 = true := by
  intro fuel
  induction fuel with
  | zero => intro s h; simp [depthOkF] at h
  | succ n ih =>
      intro s h
      cases s with
      | mk p hs a e dt ns =>
          simp only [depthOkF, List.all_eq_true] at h
          simp only [rarFixStepF, depthOkF, List.all_eq_true]
          by_cases hns : ns.isEmpty
          · simp only [hns, if_true]
            intro x hx
            exact h x hx
          · simp only [hns, Bool.false_eq_true, if_false, List.map_map]
            intro y hy
            rcases List.mem_map.mp hy with ⟨x, hx, rfl⟩
            simp only [Function.comp]
            exact ih x (h x hx)

theorem ensure_actionsOk : ∀ fuel s, depthOkF fuel s = true →
    actionsOkF fuel (ensureStepF fuel s) = true := by
  intro fuel
  induction fuel with
  | zero => intro s h; simp [depthOkF] at h
  | succ n ih =>
      intro s h
      cases s with
      | mk p hs a e dt ns =>
          simp only [depthOkF, List.all_eq_true] at h
          simp only [ensureStepF, actionsOkF, Bool.and_eq_true, List.all_eq_true]
          constructor
          · by_cases ha : actionEmptyWs a
            · simp [ha]
              decide
            · simp only [ha, Bool.false_eq_true, if_false]
              cases a with
              | none => simp [actionEmptyWs] at ha
              | some s0 =>
                  simp only [actionEmptyWs, Bool.or_eq_true, not_or] at ha
                  simp only [Bool.not_eq_true] at ha
                  simp [ha.2]
          · by_cases hns : ns.isEmpty
            · simp only [hns, if_true]
              intro y hy
              have : ns = [] := List.isEmpty_iff.mp hns
              simp [this] at hy
            · simp only [hns, Bool.false_eq_true, if_false]
              intro y hy
              rcases List.mem_map.mp hy with ⟨x, hx, rfl⟩
              exact ih x (h x hx)

/-!
## C3 — traversal of nested steps
-/

/-- C3 counterexample: on a record whose single top-level step carries a
nested step (with position 2 and a hash) and a broken CSV reference in the
nested action, csv_fixer's analysis emits a step payload whose flattened
identifier list has only the depth-0 entry — the nested step's position
and hash are dropped and its action is not repaired — refuting the claim
that every analysis visits and re-emits every step at every nesting
depth. -/
theorem c3_counterexample :
    tcNested.steps.map (idsDepthF 3 0)
        = [[(0, some 1, some ("h1".toList)), (1, some 2, some ("h2".toList))]] ∧
    (csvAnalyze tcNested).steps.isSome = true ∧
    ((csvAnalyze tcNested).steps.getD []).map (idsDepthF 3 0)
        = [[(0, some 1, some ("h1".toList))]] ∧
    ((csvAnalyze tcNested).steps.getD []).map (leavesDepthF 3 0)
        = [[(0, some ("[a.csv](u)".toList), none, none)]] := by
  refine ⟨by decide, by decide, by decide, by rfl⟩

/-- C3 amended: the attachment-removal analysis does visit every step at
every nesting depth — fix_step re-emits position and hash unchanged at
every depth (as does ensure_step_has_action) and applies the field repair
to action (with placeholder), expected_result and data of every step at
every depth — whereas the CSV analysis only visits top-level steps: its
emitted step carries the top-level position and hash but never a nested
step list. -/
theorem c3_nested_traversal :
    (∀ fuel d s, depthOkF fuel s = true →
        idsDepthF fuel d (rarFixStepF fuel s).1 = idsDepthF fuel d s) ∧
    (∀ fuel d s, depthOkF fuel s = true →
        idsDepthF fuel d (ensureStepF fuel s) = idsDepthF fuel d s) ∧
    (∀ fuel d s, depthOkF fuel s = true →
        leavesDepthF fuel d (rarFixStepF fuel s).1
          = (leavesDepthF fuel d s).map
              (fun x => (x.1, (rarFixAction x.2.1).1, (rarCleanField x.2.2.1).1,
                (rarCleanField x.2.2.2).1))) ∧
    (∀ s : Step, ((csvEmitStep s).1).stepsOf = [] ∧
        ((csvEmitStep s).1).positionOf = s.positionOf ∧
        ((csvEmitStep s).1).hashOf = s.hashOf) := by
  refine ⟨rarFix_ids, ensure_ids, rarFix_leaves, ?_⟩
  intro s
  cases s with
  | mk p hs a e dt ns =>
      exact ⟨rfl, rfl, rfl⟩

/-- Witness for C3: the identifier-preservation conjunct applied to a
concrete two-level step tree. -/
theorem c3_nested_traversal_witness :
    depthOkF 3 stepNested = true ∧
    idsDepthF 3 0 (rarFixStepF 3 stepNested).1 = idsDepthF 3 0 stepNested :=
  ⟨by decide, c3_nested_traversal.1 3 0 stepNested (by decide)⟩

/-!
## C4 — the action placeholder invariant
-/

/-- C4: whenever the attachment-removal analysis emits a step list, every
step of that payload, at every nesting depth, has an action that is
present and not whitespace-only; and ensure_step_has_action substitutes
the placeholder "." exactly when the action was absent, empty or
whitespace-only (whether the emptiness pre-existed or was introduced by
the repair), keeping the action otherwise. -/
theorem c4_action_placeholder :
    (∀ fuel tc, tc.steps.all (depthOkF fuel) = true →
        ((rarAnalyzeF fuel tc).steps.getD []).all (actionsOkF fuel) = true) ∧
    (∀ fuel s, (ensureStepF (fuel + 1) s).actionOf
        = if actionEmptyWs s.actionOf then some ['.'] else s.actionOf) := by
  constructor
  · intro fuel tc h
    simp only [rarAnalyzeF]
    by_cases hc : (!tc.steps.isEmpty
        && (tc.steps.map (rarFixStepF fuel)).any Prod.snd)
    · simp only [hc, if_true, Option.getD_some, List.map_map, List.all_eq_true]
      intro y hy
      rcases List.mem_map.mp hy with ⟨x, hx, rfl⟩
      simp only [Function.comp]
      exact ensure_actionsOk fuel _
        (rarFix_depthOk fuel x (List.all_eq_true.mp h x hx))
    · simp [hc]
  · intro fuel s
    cases s with
    | mk p hs a e dt ns => rfl

/-- Witness for C4: the payload invariant applied to a concrete record
whose top action is wiped by the repair and whose nested action is
whitespace-only — the emitted payload exists and every emitted action is
non-empty. -/
theorem c4_action_placeholder_witness :
    tcStepNested.steps.all (depthOkF 3) = true ∧
    (rarAnalyzeF 3 tcStepNested).steps.isSome = true ∧
    ((rarAnalyzeF 3 tcStepNested).steps.getD []).all (actionsOkF 3) = true :=
  ⟨by decide, by decide, c4_action_placeholder.1 3 tcStepNested (by decide)⟩

/-!
## C5 — the one-shot retry policy
-/

/-- C5: a success needs one request; a 422 whose parsed body carries the
"Action field is required" marker, when the payload has steps, triggers
exactly one resubmission with the corrected step actions, whose failure is
terminal; every other rejection (non-422 status, unparsable body, no
marker, no steps in the payload, missing response, connection error) is
terminal after the single original request; and the per-record driver
counts a terminal failure in its error tally. -/
theorem c5_retry_policy :
    (∀ fuel r2 u, updateWithRetryF fuel Resp.ok r2 u = (true, [u])) ∧
    (∀ fuel u errs, hasActionError errs = true → u.steps.isSome = true →
        updateWithRetryF fuel (Resp.httpError 422 (some errs)) Resp.ok u
          = (true, [u, rarEnsuredPayload fuel u])) ∧
    (∀ fuel r2 u errs, hasActionError errs = true → u.steps.isSome = true →
        r2 ≠ Resp.ok →
        updateWithRetryF fuel (Resp.httpError 422 (some errs)) r2 u
          = (false, [u, rarEnsuredPayload fuel u])) ∧
    (∀ fuel r2 u st body, st ≠ 422 →
        updateWithRetryF fuel (Resp.httpError st body) r2 u = (false, [u])) ∧
    (∀ fuel r2 u errs, hasActionError errs = false →
        updateWithRetryF fuel (Resp.httpError 422 (some errs)) r2 u
          = (false, [u])) ∧
    (∀ fuel r2 u errs, u.steps = none →
        updateWithRetryF fuel (Resp.httpError 422 (some errs)) r2 u
          = (false, [u])) ∧
    (∀ fuel r2 u,
        updateWithRetryF fuel (Resp.httpError 422 none) r2 u = (false, [u])) ∧
    (∀ fuel r2 u, updateWithRetryF fuel Resp.httpNoResp r2 u = (false, [u])) ∧
    (∀ fuel r2 u, updateWithRetryF fuel Resp.connError r2 u = (false, [u])) ∧
    (∀ fuel r1 r2 tc, (rarAnalyzeF fuel tc).isEmptyU = false →
        (updateWithRetryF fuel r1 r2 (rarAnalyzeF fuel tc)).1 = false →
        rarProcessRecord fuel false r1 r2 tc
          = (⟨1, 0, 1, 0⟩,
             (updateWithRetryF fuel r1 r2 (rarAnalyzeF fuel tc)).2)) := by
  refine ⟨fun fuel r2 u => rfl, ?_, ?_, ?_, ?_, ?_, fun fuel r2 u => rfl,
    fun fuel r2 u => rfl, fun fuel r2 u => rfl, ?_⟩
  · intro fuel u errs h1 h2
    simp [updateWithRetryF, h1, h2, rarEnsuredPayload]
  · intro fuel r2 u errs h1 h2 hr2
    cases r2 with
    | ok => exact absurd rfl hr2
    | httpError st body => simp [updateWithRetryF, h1, h2, rarEnsuredPayload]
    | httpNoResp => simp [updateWithRetryF, h1, h2, rarEnsuredPayload]
    | connError => simp [updateWithRetryF, h1, h2, rarEnsuredPayload]
  · intro fuel r2 u st body hst
    simp [updateWithRetryF, hst]
  · intro fuel r2 u errs h1
    simp [updateWithRetryF, h1]
  · intro fuel r2 u errs h6
    simp [updateWithRetryF, h6]
  · intro fuel r1 r2 tc h1 h2
    simp [rarProcessRecord, h1, h2]

/-- Witness for C5: a structural 422 with the marker and a failing retry,
at a concrete payload — one resubmission with the corrected actions, then
terminal failure. -/
theorem c5_retry_policy_witness :
    updateWithRetryF 1
        (Resp.httpError 422
          (some [(("steps.0.action".toList), ErrVal.listV [actionMarker])]))
        Resp.connError
        (Updates.mk none none none
          (some [Step.mk (some 1) none (some []) none none []]) none)
      = (false,
         [Updates.mk none none none
            (some [Step.mk (some 1) none (some []) none none []]) none,
          rarEnsuredPayload 1
            (Updates.mk none none none
              (some [Step.mk (some 1) none (some []) none none []]) none)]) :=
  c5_retry_policy.2.2.1 1 Resp.connError
    (Updates.mk none none none
      (some [Step.mk (some 1) none (some []) none none []]) none)
    [(("steps.0.action".toList), ErrVal.listV [actionMarker])]
    (by decide) (by decide) (fun h => Resp.noConfusion h)

/-!
## C6 — empty change set means no update call
-/

/-- C6: when the analysis produces an empty payload, the per-record driver
of csv_fixer adds nothing to the needing-fixing/fixed/error counters and
submits nothing, and the per-record driver of remove_attachment_references
counts the record as skipped and submits nothing. -/
theorem c6_empty_changeset_no_update :
    (∀ dry apiOk tc, (csvAnalyze tc).isEmptyU = true →
        csvProcessCase dry apiOk tc = (⟨0, 0, 0⟩, [])) ∧
    (∀ fuel dry r1 r2 tc, (rarAnalyzeF fuel tc).isEmptyU = true →
        rarProcessRecord fuel dry r1 r2 tc = (⟨0, 0, 0, 1⟩, [])) := by
  constructor
  · intro dry apiOk tc h
    simp [csvProcessCase, h]
  · intro fuel dry r1 r2 tc h
    simp [rarProcessRecord, h]

/-- Witness for C6: a record with no repairable content is skipped by both
drivers without any update call. -/
theorem c6_empty_changeset_no_update_witness :
    csvProcessCase false true
        (TestCase.mk none none none [] []) = (⟨0, 0, 0⟩, []) ∧
    rarProcessRecord 1 false Resp.ok Resp.ok
        (TestCase.mk none none none [] []) = (⟨0, 0, 0, 1⟩, []) :=
  ⟨c6_empty_changeset_no_update.1 false true (TestCase.mk none none none [] [])
      (by decide),
   c6_empty_changeset_no_update.2 1 false Resp.ok Resp.ok
      (TestCase.mk none none none [] []) (by decide)⟩

/-!
## Heap-extension lemmas and C10 — the analyzers never mutate their input
-/

theorem HExt_refl (h : Heap) : HExt h h := ⟨le_refl _, fun _ _ => rfl⟩

theorem HExt_trans {h1 h2 h3 : Heap} (a : HExt h1 h2) (b : HExt h2 h3) :
    HExt h1 h3 :=
  ⟨le_trans a.1 b.1,
   fun i hi => (b.2 i (lt_of_lt_of_le hi a.1)).trans (a.2 i hi)⟩

theorem HExt_halloc (h : Heap) (o : SObj) : HExt h (halloc h o) := by
  constructor
  · simp [halloc, hlen]
  · intro i hi
    exact List.getElem?_append_left hi

theorem HExt_hup {h h2 : Heap} {nr : Nat} (hx : HExt h h2)
    (hn : hlen h ≤ nr) (f : SObj → SObj) : HExt h (hup h2 nr f) := by
  constructor
  · simpa [hup, hset, hlen] using hx.1
  · intro i hi
    have hne : nr ≠ i := Nat.ne_of_gt (lt_of_lt_of_le hi hn)
    calc (hup h2 nr f)[i]? = h2[i]? := List.getElem?_set_ne hne
      _ = h[i]? := hx.2 i hi

theorem HExt_hupIf {h h2 : Heap} {nr : Nat} (c : Bool) (f : SObj → SObj)
    (hx : HExt h h2) (hn : hlen h ≤ nr) :
    HExt h (if c then hup h2 nr f else h2) := by
  cases c
  · simpa using hx
  · simpa using HExt_hup hx hn f

theorem HExt_stepFold (f : Heap → Nat → Heap × Nat × Bool)
    (hf : ∀ h r, HExt h (f h r).1) :
    ∀ (rs : List Nat) (h : Heap) (acc : List Nat) (b : Bool),
      HExt h (stepFold f rs (h, acc, b)).1 := by
  intro rs
  induction rs with
  | nil => intro h acc b; exact HExt_refl h
  | cons r rs ih =>
      intro h acc b
      show HExt h
        (stepFold f rs ((f h r).1, acc ++ [(f h r).2.1], b || (f h r).2.2)).1
      exact HExt_trans (hf h r) (ih (f h r).1 _ _)

theorem rarFixStepH_hext : ∀ fuel h r, HExt h (rarFixStepH fuel h r).1 := by
  intro fuel
  induction fuel with
  | zero => intro h r; exact HExt_refl h
  | succ n ih =>
      intro h r
      simp only [rarFixStepH]
      have h1 := HExt_halloc h (hget h r)
      have h2 := HExt_hupIf (h := h) (rarFixAction (hget h r).action).2
        (fun o => { o with action := (rarFixAction (hget h r).action).1 })
        h1 (le_refl _)
      have h3 := HExt_hupIf (h := h) (rarCleanField (hget h r).expected).2
        (fun o => { o with expected := (rarCleanField (hget h r).expected).1 })
        h2 (le_refl _)
      have h4 := HExt_hupIf (h := h) (rarCleanField (hget h r).sdata).2
        (fun o => { o with sdata := (rarCleanField (hget h r).sdata).1 })
        h3 (le_refl _)
      split
      · exact h4
      · dsimp only
        exact HExt_hup (HExt_trans h4 (HExt_stepFold _ ih _ _ _ _))
          (le_refl _) _

theorem ensureStepH_hext : ∀ fuel h r, HExt h (ensureStepH fuel h r).1 := by
  intro fuel
  induction fuel with
  | zero => intro h r; exact HExt_refl h
  | succ n ih =>
      intro h r
      simp only [ensureStepH]
      have h1 := HExt_halloc h (hget h r)
      have h2 := HExt_hupIf (h := h) (actionEmptyWs (hget h r).action)
        (fun o => { o with action := some ['.'] }) h1 (le_refl _)
      split
      · exact h2
      · dsimp only
        exact HExt_hup
          (HExt_trans h2
            (HExt_stepFold
              (fun hh rr => ((ensureStepH n hh rr).1, (ensureStepH n hh rr).2, false))
              (fun hh rr => ih hh rr) _ _ _ _))
          (le_refl _) _

theorem csvEmitStepH_hext : ∀ h r, HExt h (csvEmitStepH h r).1 := by
  intro h r
  simp only [csvEmitStepH]
  have h1 := HExt_halloc h default
  have h2 := HExt_hupIf (h := h) ((hget h r).position.isSome)
    (fun o => { o with position := (hget h r).position }) h1 (le_refl _)
  have h3 := HExt_hupIf (h := h) ((hget h r).hash.isSome)
    (fun o => { o with hash := (hget h r).hash }) h2 (le_refl _)
  have h4 := HExt_hupIf (h := h) ((csvFixOpt (hget h r).action).1.isSome)
    (fun o => { o with action := (csvFixOpt (hget h r).action).1 }) h3 (le_refl _)
  have h5 := HExt_hupIf (h := h) ((csvFixOpt (hget h r).expected).1.isSome)
    (fun o => { o with expected := (csvFixOpt (hget h r).expected).1 }) h4 (le_refl _)
  exact HExt_hupIf (h := h) ((csvFixOpt (hget h r).sdata).1.isSome)
    (fun o => { o with sdata := (csvFixOpt (hget h r).sdata).1 }) h5 (le_refl _)

theorem htmlEmitStepH_hext : ∀ h r, HExt h (htmlEmitStepH h r).1 := by
  intro h r
  simp only [htmlEmitStepH]
  have h1 := HExt_halloc h default
  have h2 := HExt_hupIf (h := h) ((hget h r).position.isSome)
    (fun o => { o with position := (hget h r).position }) h1 (le_refl _)
  have h3 := HExt_hupIf (h := h) ((hget h r).hash.isSome)
    (fun o => { o with hash := (hget h r).hash }) h2 (le_refl _)
  have h4 := HExt_hupIf (h := h) ((htmlFixOpt (hget h r).action).1.isSome)
    (fun o => { o with action := (htmlFixOpt (hget h r).action).1 }) h3 (le_refl _)
  have h5 := HExt_hupIf (h := h) ((htmlFixOpt (hget h r).expected).1.isSome)
    (fun o => { o with expected := (htmlFixOpt (hget h r).expected).1 }) h4 (le_refl _)
  exact HExt_hupIf (h := h) ((htmlFixOpt (hget h r).sdata).1.isSome)
    (fun o => { o with sdata := (htmlFixOpt (hget h r).sdata).1 }) h5 (le_refl _)

theorem rarStepsSectionH_hext (fuel : Nat) (h : Heap) (rs : List Nat) :
    HExt h (rarStepsSectionH fuel h rs).1 := by
  simp only [rarStepsSectionH]
  split
  · exact HExt_refl h
  · split
    · exact HExt_trans
        (HExt_stepFold _ (rarFixStepH_hext fuel) rs h [] false)
        (HExt_stepFold
          (fun hh rr => ((ensureStepH fuel hh rr).1, (ensureStepH fuel hh rr).2, false))
          (fun hh rr => ensureStepH_hext fuel hh rr) _ _ [] false)
    · exact HExt_stepFold _ (rarFixStepH_hext fuel) rs h [] false

/-- C10: the change analysis never mutates its input.  Every step object
that existed in the heap before any of the three analyzers' step walkers
ran — remove_attachment_references' fix_step and ensure_step_has_action
(at every nesting depth), csv_fixer's and fix_html_tags' step emitters —
is bit-for-bit unchanged afterwards; the walkers only read the input
objects and write to freshly allocated copies, so the update payload is
built entirely from fresh objects. -/
theorem c10_analyzers_never_mutate :
    (∀ fuel h r, HExt h (rarFixStepH fuel h r).1) ∧
    (∀ fuel h r, HExt h (ensureStepH fuel h r).1) ∧
    (∀ h r, HExt h (csvEmitStepH h r).1) ∧
    (∀ h r, HExt h (htmlEmitStepH h r).1) ∧
    (∀ fuel h rs, HExt h (rarStepsSectionH fuel h rs).1) :=
  ⟨rarFixStepH_hext, ensureStepH_hext, csvEmitStepH_hext, htmlEmitStepH_hext,
   rarStepsSectionH_hext⟩

end QaseSpec

